import Mathlib

/-!
Shallow embedding of the trader_webull order-execution core, verified against
its natural-language specification.  Rust `f64` arithmetic is modelled over
`Rat` (so `1e-6` becomes `1/1000000` and so on); machine integer `u32` is a
`Nat` with explicit range checks where the source parses or casts.
-/

set_option maxHeartbeats 1000000
set_option maxRecDepth 8000

namespace Trader

/-- Rust `f64::abs`, over `Rat`. -/
def ratAbs (x : Rat) : Rat := if x < 0 then -x else x

/-- ASCII whitespace, modelling the whitespace class used by `str::trim`
and the regex class `\s` (only ASCII inputs appear in this code base). -/
def isWs (c : Char) : Bool :=
  c = ' ' || c = '\t' || c = '\n' || c = '\x0B' || c = '\x0C' || c = '\r'

/-- Rust `str::eq_ignore_ascii_case` (Lean's `Char.toUpper` is ASCII-only,
matching `to_ascii_uppercase`). -/
def eq_ignore_ascii_case (a b : String) : Bool :=
  a.toUpper == b.toUpper

/-- `chrono::NaiveDate`, abstracted to its fields. -/
structure NaiveDate where
  y : Nat
  m : Nat
  d : Nat
deriving DecidableEq, Repr

/-- `types::Holding` (types.rs): tagged union of stock and option holdings. -/
inductive Holding where
  | stock (symbol : String) (quantity : Rat) (avg_cost : Rat)
  | option (symbol : String) (strike : Rat) (call_put : Char) (expiry_mmdd : String)
      (quantity : Nat) (avg_cost : Rat)
deriving DecidableEq, Repr

/-- `types::PlEntry` (types.rs): realized P/L record. -/
structure PlEntry where
  date : NaiveDate
  asset : String
  qty : Rat
  realized_pl : Rat
deriving DecidableEq, Repr

/-- `state::BotState` (state.rs): holdings plus realized daily P/L. -/
structure BotState where
  holdings : List Holding
  daily_pl : List PlEntry
deriving DecidableEq, Repr

/-- `BotState::position_qty_stock` (state.rs): fold summing quantities of
stock holdings whose symbol matches case-insensitively. -/
def BotState.position_qty_stock (st : BotState) (symbol : String) : Rat :=
  let sym := symbol.toUpper
  st.holdings.foldl
    (fun acc h =>
       match h with
       | .stock s q _ => if eq_ignore_ascii_case s sym then acc + q else acc
       | _ => acc)
    0

/-- `BotState::position_qty_option` (state.rs).  In the source the match
pattern binds the holding's `expiry_mmdd` field under the same name as the
function parameter, so its guard `expiry_mmdd == expiry_mmdd` compares the
holding's own expiry with itself and is always true; the embedding keeps
that self-comparison (`e == e`). -/
def BotState.position_qty_option (st : BotState) (symbol : String) (strike : Rat)
    (cp : Char) (expiry_mmdd : String) : Nat :=
  let sym := symbol.toUpper
  let cp_u := cp.toUpper
  st.holdings.foldl
    (fun acc h =>
       match h with
       | .option s k c e q _ =>
         if eq_ignore_ascii_case s sym && decide (ratAbs (k - strike) < 1/1000000)
             && (c.toUpper == cp_u) && (e == e) then acc + q else acc
       | _ => acc)
    0

/-- Helper for `upsert_stock_buy_with_cost`: update the first stock holding
matching `sym` in place; `none` when no holding matches. -/
def upsertStockGo (sym : String) (fill_qty fill_price : Rat) :
    List Holding → Option (List Holding)
  | [] => none
  | h :: rest =>
    match h with
    | .stock s q a =>
      if eq_ignore_ascii_case s sym then
        let total_cost := a * q + fill_price * fill_qty
        let q2 := q + fill_qty
        some (.stock s q2 (if 0 < q2 then total_cost / q2 else 0) :: rest)
      else
        (upsertStockGo sym fill_qty fill_price rest).map (h :: ·)
    | _ => (upsertStockGo sym fill_qty fill_price rest).map (h :: ·)

/-- `BotState::upsert_stock_buy_with_cost` (state.rs): weighted-average add
for stock BUY fills; pushes a fresh holding when none matches. -/
def BotState.upsert_stock_buy_with_cost (st : BotState) (symbol : String)
    (fill_qty fill_price : Rat) : BotState :=
  let sym := symbol.toUpper
  match upsertStockGo sym fill_qty fill_price st.holdings with
  | some hs => { st with holdings := hs }
  | none => { st with holdings := st.holdings ++ [.stock sym fill_qty fill_price] }

/-- Helper for `upsert_option_buy_with_cost`: update the first matching
option holding (symbol case-insensitive, strike within `1e-6`, call/put
case-insensitive, expiry equal). -/
def upsertOptionGo (sym : String) (strike : Rat) (cp_u : Char) (exp : String)
    (fill_qty : Nat) (fill_price : Rat) : List Holding → Option (List Holding)
  | [] => none
  | h :: rest =>
    match h with
    | .option s k c e q a =>
      if eq_ignore_ascii_case s sym && decide (ratAbs (k - strike) < 1/1000000)
          && (c.toUpper == cp_u) && (e == exp) then
        let total_cost := a * (q : Rat) + fill_price * (fill_qty : Rat)
        let q2 := q + fill_qty
        some (.option s k c e q2 (if 0 < q2 then total_cost / (q2 : Rat) else 0) :: rest)
      else
        (upsertOptionGo sym strike cp_u exp fill_qty fill_price rest).map (h :: ·)
    | _ => (upsertOptionGo sym strike cp_u exp fill_qty fill_price rest).map (h :: ·)

/-- `BotState::upsert_option_buy_with_cost` (state.rs). -/
def BotState.upsert_option_buy_with_cost (st : BotState) (symbol : String)
    (strike : Rat) (cp : Char) (expiry_mmdd : String) (fill_qty : Nat)
    (fill_price : Rat) : BotState :=
  let sym := symbol.toUpper
  let cp_u := cp.toUpper
  match upsertOptionGo sym strike cp_u expiry_mmdd fill_qty fill_price st.holdings with
  | some hs => { st with holdings := hs }
  | none =>
      { st with holdings :=
          st.holdings ++ [.option sym strike cp_u expiry_mmdd fill_qty fill_price] }

/-- Helper for `realize_stock_sell`: walk to the first stock holding whose
symbol matches, sell into it, drop it when the remainder is `≤ 1e-9`.
Returns the new holdings and, on a match, the sold quantity and realized P/L. -/
def realizeStockGo (sym : String) (sell_qty sell_price : Rat) :
    List Holding → List Holding × Option (Rat × Rat)
  | [] => ([], none)
  | h :: rest =>
    match h with
    | .stock s q a =>
      if eq_ignore_ascii_case s sym then
        let qq := min sell_qty q
        let realized := (sell_price - a) * qq
        let q2 := q - qq
        ((if q2 ≤ 1/1000000000 then rest else .stock s q2 a :: rest), some (qq, realized))
      else
        let res := realizeStockGo sym sell_qty sell_price rest
        (h :: res.1, res.2)
    | _ =>
        let res := realizeStockGo sym sell_qty sell_price rest
        (h :: res.1, res.2)

/-- `BotState::realize_stock_sell` (state.rs): realize P/L on the first
matching stock holding, append one `PlEntry`, return the realized amount
(`0` and no change when nothing matches). -/
def BotState.realize_stock_sell (st : BotState) (symbol : String)
    (sell_qty sell_price : Rat) (date : NaiveDate) : BotState × Rat :=
  let sym := symbol.toUpper
  let res := realizeStockGo sym sell_qty sell_price st.holdings
  match res.2 with
  | none => ({ st with holdings := res.1 }, 0)
  | some (qq, realized) =>
      ({ holdings := res.1,
         daily_pl := st.daily_pl ++ [⟨date, sym, qq, realized⟩] }, realized)

/-- The asset label `format!` built by `realize_option_sell`; Rust's float
`Display` is abstracted by `Rat`'s `ToString`. -/
def optionAssetLabel (sym : String) (strike : Rat) (cp_u : Char) (expiry : String) : String :=
  sym ++ " " ++ toString strike ++ String.singleton cp_u ++ " " ++ expiry

/-- Helper for `realize_option_sell`: first option holding matching the full
key (symbol case-insensitive, strike within `1e-6`, call/put case-insensitive,
expiry equal — here the source compares the expiry correctly); drop the
holding when the remaining contracts are exactly zero. -/
def realizeOptionGo (sym : String) (strike : Rat) (cp_u : Char) (expiry : String)
    (sell_qty : Nat) (sell_price : Rat) :
    List Holding → List Holding × Option (Nat × Rat)
  | [] => ([], none)
  | h :: rest =>
    match h with
    | .option s k c e q a =>
      if eq_ignore_ascii_case s sym && decide (ratAbs (k - strike) < 1/1000000)
          && (c.toUpper == cp_u) && (e == expiry) then
        let qq := min sell_qty q
        let realized := (sell_price - a) * (qq : Rat) * 100
        let q2 := q - qq
        ((if q2 = 0 then rest else .option s k c e q2 a :: rest), some (qq, realized))
      else
        let res := realizeOptionGo sym strike cp_u expiry sell_qty sell_price rest
        (h :: res.1, res.2)
    | _ =>
        let res := realizeOptionGo sym strike cp_u expiry sell_qty sell_price rest
        (h :: res.1, res.2)

/-- `BotState::realize_option_sell` (state.rs): realized P/L is per contract
times 100. -/
def BotState.realize_option_sell (st : BotState) (symbol : String) (strike : Rat)
    (cp : Char) (expiry_mmdd : String) (sell_qty : Nat) (sell_price : Rat)
    (date : NaiveDate) : BotState × Rat :=
  let sym := symbol.toUpper
  let cp_u := cp.toUpper
  let res := realizeOptionGo sym strike cp_u expiry_mmdd sell_qty sell_price st.holdings
  match res.2 with
  | none => ({ st with holdings := res.1 }, 0)
  | some (qq, realized) =>
      ({ holdings := res.1,
         daily_pl := st.daily_pl ++
           [⟨date, optionAssetLabel sym strike cp_u expiry_mmdd, (qq : Rat), realized⟩] },
       realized)

/-- `BotState::set_holdings` (state.rs): wholesale replacement. -/
def BotState.set_holdings (st : BotState) (new_holdings : List Holding) : BotState :=
  { st with holdings := new_holdings }

/-- `types::Action` (types.rs). -/
inductive Action where
  | BTO
  | STC
deriving DecidableEq, Repr

/-- `types::OrderType` (types.rs). -/
inductive OrderType where
  | Market
  | Limit
deriving DecidableEq, Repr

/-- `types::StockSignal` (types.rs); `quantity` is a Rust `u32`. -/
structure StockSignal where
  action : Action
  symbol : String
  quantity : Nat
  order_type : OrderType
  limit_price : Option Rat
deriving DecidableEq, Repr

/-- `types::OptionSignal` (types.rs). -/
structure OptionSignal where
  action : Action
  symbol : String
  strike : Rat
  call_put : Char
  expiry_mmdd : String
  quantity : Nat
  order_type : OrderType
  limit_price : Option Rat
deriving DecidableEq, Repr

/-- `types::TradeSignal` (types.rs). -/
inductive TradeSignal where
  | stock (s : StockSignal)
  | option (o : OptionSignal)
deriving DecidableEq, Repr

/-- Quantity of either signal variant. -/
def TradeSignal.quantity : TradeSignal → Nat
  | .stock s => s.quantity
  | .option o => o.quantity

/-- Order type of either signal variant. -/
def TradeSignal.order_type : TradeSignal → OrderType
  | .stock s => s.order_type
  | .option o => o.order_type

/-- Limit price of either signal variant. -/
def TradeSignal.limit_price : TradeSignal → Option Rat
  | .stock s => s.limit_price
  | .option o => o.limit_price

/-- Structured rejection reasons standing for the `anyhow::bail!` message
strings of `RiskEngine::pre_check` (risk.rs). -/
inductive RiskReason where
  | notionalExceeded (notional max_value : Rat)
  | insufficientStock (requested : Nat) (symbol : String) (have_qty : Rat)
  | insufficientOption (requested : Nat) (symbol : String) (strike : Rat)
      (cp : Char) (expiry : String) (have_qty : Nat)
deriving DecidableEq, Repr

/-- `risk::RiskEngine` (risk.rs). -/
structure RiskEngine where
  max_position_value : Rat
deriving DecidableEq, Repr

/-- `RiskEngine::pre_check` (risk.rs): notional cap first, then the
held-quantity rule for SellToClose signals. -/
def RiskEngine.pre_check (re : RiskEngine) (signal : TradeSignal) (est_price : Rat)
    (state : BotState) : Except RiskReason Unit :=
  let notional :=
    match signal with
    | .stock s => est_price * (s.quantity : Rat)
    | .option o => est_price * (o.quantity : Rat) * 100
  if notional > re.max_position_value then
    .error (.notionalExceeded notional re.max_position_value)
  else
    match signal with
    | .stock s =>
      if s.action = .STC then
        let have_qty := state.position_qty_stock s.symbol
        if have_qty + 1/1000000000 < (s.quantity : Rat) then
          .error (.insufficientStock s.quantity s.symbol have_qty)
        else .ok ()
      else .ok ()
    | .option o =>
      if o.action = .STC then
        let have_qty := state.position_qty_option o.symbol o.strike o.call_put o.expiry_mmdd
        if have_qty < o.quantity then
          .error (.insufficientOption o.quantity o.symbol o.strike o.call_put
                    o.expiry_mmdd have_qty)
        else .ok ()
      else .ok ()

/-! ### Signal parser (parser.rs)

`parse_signal` tries four anchored regexes in order:

  re_opt       `(?i)^(BTO|STC)\s+(\d+)\s+([A-Z]{1,6})\s+(\d+(?:\.\d+)?)\s*([CP])\s+(\d{2}/\d{2})\s*@\s*(m|M|[\d\.]+)$`
  re_opt_noqty — the same without the `(\d+)\s+` quantity group (price alt `m|[\d\.]+`, identical under `(?i)`)
  re_stk       `(?i)^(BTO|STC)\s+(\d+)\s+([A-Z]{1,6})\s*@\s*(m|M|[\d\.]+)$`
  re_stk_noqty — the same without the quantity group

The embedding implements each regex as a deterministic scanner.  This is
faithful because every adjacent pair of sub-patterns draws from disjoint
character classes (digits / letters / whitespace / `@` / `/`), so greedy
matching without backtracking recognises exactly the same language; for the
bounded repetition `[A-Z]{1,6}` followed by `\s+` or `\s*@`, any shorter
backtracked take still faces a letter next, so a letter-run longer than 6
can never match.  Integer and float conversions (`parse::<u32>` with its `?`,
`parse::<f64>` with its `?`) abort the whole function on failure exactly as
in the source; `f64` values are represented in `Rat`.
-/

def isDigitCh (c : Char) : Bool := c.isDigit

def isLetterCh (c : Char) : Bool := c.isAlpha

def isDigitDot (c : Char) : Bool := c.isDigit || c = '.'

/-- `str::trim` (ASCII whitespace). -/
def rustTrim (cs : List Char) : List Char :=
  ((cs.dropWhile isWs).reverse.dropWhile isWs).reverse

/-- Regex `\s*`. -/
def wsStar (cs : List Char) : List Char := cs.dropWhile isWs

/-- Regex `\s+`. -/
def wsPlus : List Char → Option (List Char)
  | [] => none
  | c :: rest => if isWs c then some (rest.dropWhile isWs) else none

/-- Regex `(\d+)`. -/
def digits1 (cs : List Char) : Option (List Char × List Char) :=
  match cs.span isDigitCh with
  | ([], _) => none
  | (tok, rest) => some (tok, rest)

/-- Regex `([A-Z]{1,6})` under `(?i)`, in the contexts of this grammar
(always followed by a non-letter requirement, see the section comment). -/
def letters1to6 (cs : List Char) : Option (List Char × List Char) :=
  match cs.span isLetterCh with
  | ([], _) => none
  | (tok, rest) => if tok.length ≤ 6 then some (tok, rest) else none

/-- Regex `(BTO|STC)` under `(?i)`. -/
def matchAction : List Char → Option (List Char × List Char)
  | a :: b :: c :: rest =>
    if [a, b, c].map Char.toUpper = ['B', 'T', 'O']
        || [a, b, c].map Char.toUpper = ['S', 'T', 'C'] then
      some ([a, b, c], rest)
    else none
  | _ => none

/-- Regex `(\d+(?:\.\d+)?)`: the optional fraction group is consumed only
when a digit follows the dot, as the regex would. -/
def matchStrike (cs : List Char) : Option (List Char × List Char) :=
  match digits1 cs with
  | none => none
  | some (ip, r1) =>
    match r1 with
    | '.' :: r2 =>
      match r2.span isDigitCh with
      | ([], _) => some (ip, r1)
      | (fp, r3) => some (ip ++ '.' :: fp, r3)
    | _ => some (ip, r1)

/-- Regex `([CP])` under `(?i)`. -/
def matchCP : List Char → Option (Char × List Char)
  | c :: rest =>
    if c = 'C' || c = 'c' || c = 'P' || c = 'p' then some (c, rest) else none
  | [] => none

/-- Regex `(\d{2}/\d{2})`. -/
def matchExpiry : List Char → Option (List Char × List Char)
  | d1 :: d2 :: sl :: d3 :: d4 :: rest =>
    if isDigitCh d1 && isDigitCh d2 && sl = '/' && isDigitCh d3 && isDigitCh d4 then
      some ([d1, d2, sl, d3, d4], rest)
    else none
  | _ => none

/-- Regex `(m|M|[\d\.]+)$`: the remainder of the input must be the literal
`m`/`M` or a nonempty run of digits and dots. -/
def matchPriceEnd (cs : List Char) : Option (List Char) :=
  if cs = ['m'] || cs = ['M'] then some cs
  else if !cs.isEmpty && cs.all isDigitDot then some cs
  else none

/-- Capture groups of `re_stk` / `re_stk_noqty` (`qty = none` for the
no-quantity variant). -/
structure StkCaps where
  action : List Char
  qty : Option (List Char)
  symbol : List Char
  price : List Char
deriving DecidableEq, Repr

/-- Capture groups of `re_opt` / `re_opt_noqty`. -/
structure OptCaps where
  action : List Char
  qty : Option (List Char)
  symbol : List Char
  strike : List Char
  cp : Char
  expiry : List Char
  price : List Char
deriving DecidableEq, Repr

/-- The optional `(\d+)\s+` quantity group: present in `re_opt`/`re_stk`
(`with_qty = true`), absent in the `_noqty` variants. -/
def qtyGroup (with_qty : Bool) (r2 : List Char) :
    Option (Option (List Char) × List Char) :=
  if with_qty then
    match digits1 r2 with
    | none => none
    | some (q, r3) =>
      match wsPlus r3 with
      | none => none
      | some r4 => some (some q, r4)
  else some (none, r2)

/-- `re_opt.captures` (`with_qty = true`) and `re_opt_noqty.captures`
(`with_qty = false`). -/
def re_opt_match (with_qty : Bool) (cs : List Char) : Option OptCaps :=
  match matchAction cs with
  | none => none
  | some (act, r1) =>
  match wsPlus r1 with
  | none => none
  | some r2 =>
  match qtyGroup with_qty r2 with
  | none => none
  | some (qty, r4) =>
  match letters1to6 r4 with
  | none => none
  | some (sym, r5) =>
  match wsPlus r5 with
  | none => none
  | some r6 =>
  match matchStrike r6 with
  | none => none
  | some (strike, r7) =>
  match matchCP (wsStar r7) with
  | none => none
  | some (cp, r8) =>
  match wsPlus r8 with
  | none => none
  | some r9 =>
  match matchExpiry r9 with
  | none => none
  | some (exp, r10) =>
  match wsStar r10 with
  | '@' :: r11 =>
    match matchPriceEnd (wsStar r11) with
    | none => none
    | some price => some ⟨act, qty, sym, strike, cp, exp, price⟩
  | _ => none

/-- `re_stk.captures` (`with_qty = true`) and `re_stk_noqty.captures`
(`with_qty = false`).  Note the source regex reads `...([A-Z]{1,6})\s*@\s*...`:
only zero or more whitespace characters are required before the `@`. -/
def re_stk_match (with_qty : Bool) (cs : List Char) : Option StkCaps :=
  match matchAction cs with
  | none => none
  | some (act, r1) =>
  match wsPlus r1 with
  | none => none
  | some r2 =>
  match qtyGroup with_qty r2 with
  | none => none
  | some (qty, r4) =>
  match letters1to6 r4 with
  | none => none
  | some (sym, r5) =>
  match wsStar r5 with
  | '@' :: r6 =>
    match matchPriceEnd (wsStar r6) with
    | none => none
    | some price => some ⟨act, qty, sym, price⟩
  | _ => none

def toUpperL (cs : List Char) : List Char := cs.map Char.toUpper

def toLowerL (cs : List Char) : List Char := cs.map Char.toLower

/-- `match &c[1].to_uppercase()[..] {{ "BTO" => ..., "STC" => ..., _ => return None }}`. -/
def decodeAction (cs : List Char) : Option Action :=
  if toUpperL cs = ['B', 'T', 'O'] then some .BTO
  else if toUpperL cs = ['S', 'T', 'C'] then some .STC
  else none

def natOfDigits (cs : List Char) : Nat :=
  cs.foldl (fun acc c => acc * 10 + (c.toNat - '0'.toNat)) 0

/-- `str::parse::<u32>` on a nonempty digit string: fails exactly on
overflow. -/
def parse_u32 (cs : List Char) : Option Nat :=
  let n := natOfDigits cs
  if n < 4294967296 then some n else none

/-- `str::parse::<f64>` restricted to the digit-and-dot tokens this grammar
produces (no sign or exponent can occur): accepts `digits`, `digits.`,
`digits.digits` and `.digits`, rejects everything else (`.`, `1.2.3`, …);
the value is represented exactly in `Rat`. -/
def parse_f64 (cs : List Char) : Option Rat :=
  let dots := (cs.filter (fun c => c = '.')).length
  if dots = 0 then
    if cs.isEmpty then none else some (natOfDigits cs : Rat)
  else if dots = 1 then
    let ip := cs.takeWhile (fun c => c ≠ '.')
    let fp := (cs.dropWhile (fun c => c ≠ '.')).tail
    if ip.isEmpty && fp.isEmpty then none
    else some ((natOfDigits ip : Rat) + (natOfDigits fp : Rat) / ((10 : Rat) ^ fp.length))
  else none

/-- The shared price conversion: `if price_raw == "m" {{ (Market, None) }}
else {{ (Limit, Some(price_raw.parse().ok()?)) }}` after
`to_ascii_lowercase`. -/
def price_to_order (price : List Char) : Option (OrderType × Option Rat) :=
  let price_raw := toLowerL price
  if price_raw = ['m'] then some (.Market, none)
  else
    match parse_f64 price_raw with
    | none => none
    | some v => some (.Limit, some v)

/-- The conversion block shared by the two stock branches of `parse_signal`;
the symbol is passed through `to_uppercase()` as in the source. -/
def conv_stock (caps : StkCaps) : Option TradeSignal :=
  match decodeAction caps.action with
  | none => none
  | some action =>
  match (match caps.qty with
         | some ds => parse_u32 ds
         | none => some 1) with
  | none => none
  | some qty =>
    match price_to_order caps.price with
    | none => none
    | some (ot, lp) =>
      some (.stock ⟨action, String.mk (toUpperL caps.symbol), qty, ot, lp⟩)

/-- The conversion block shared by the two option branches of `parse_signal`. -/
def conv_option (caps : OptCaps) : Option TradeSignal :=
  match decodeAction caps.action with
  | none => none
  | some action =>
  match (match caps.qty with
         | some ds => parse_u32 ds
         | none => some 1) with
  | none => none
  | some qty =>
  match parse_f64 caps.strike with
  | none => none
  | some strike =>
    match price_to_order caps.price with
    | none => none
    | some (ot, lp) =>
      some (.option ⟨action, String.mk (toUpperL caps.symbol), strike, caps.cp.toUpper,
        String.mk caps.expiry, qty, ot, lp⟩)

/-- `parser::parse_signal` (parser.rs): trim, then try the four regexes in
order; a conversion failure (`?`) aborts the whole function rather than
falling through to the next pattern, exactly as in the source. -/
def parse_signal (text : String) : Option TradeSignal :=
  let t := rustTrim text.data
  match re_opt_match true t with
  | some caps => conv_option caps
  | none =>
    match re_opt_match false t with
    | some caps => conv_option caps
    | none =>
      match re_stk_match true t with
      | some caps => conv_stock caps
      | none =>
        match re_stk_match false t with
        | some caps => conv_stock caps
        | none => none

/-! ### Order lifecycle monitor (main.rs)

The sell monitors are async functions interleaving broker I/O with ledger
mutations.  The embedding passes the broker environment as data — `poll1`
is the outcome of the first `poll_until_filled` (`none` models the poll
returning `Err`, which makes the monitor return early), `place_res` the
result of the market re-submission (`none` = `Err`, logged only), `poll2`
the outcome of the follow-up poll — and returns the final ledger together
with the ordered trace of observable effects (ledger realizes, state saves,
broker calls).  Persistence (`st.save`) is recorded as `Eff.save`.
-/

/-- `webull_client::OrderStatus`. -/
inductive OrderStatus where
  | Working
  | PartiallyFilled
  | Filled
  | Canceled
  | Rejected
  | Unknown (raw : String)
deriving DecidableEq, Repr

/-- `webull_client::OrderInfo`. -/
structure OrderInfo where
  status : OrderStatus
  filled_qty : Rat
  avg_fill_price : Rat
deriving DecidableEq, Repr

/-- One observable effect of a monitor run. -/
inductive Eff where
  | realizeStock (symbol : String) (qty price : Rat)
  | realizeOption (symbol : String) (strike : Rat) (call_put : Char)
      (expiry : String) (qty : Nat) (price : Rat)
  | save
  | cancelOrder (order_id : String)
  | placeStockMarket (symbol : String) (qty : Rat)
  | placeOptionMarket (symbol : String) (strike : Rat) (call_put : Char)
      (expiry : String) (qty : Rat)
deriving DecidableEq, Repr

def Eff.isRealize : Eff → Bool
  | .realizeStock .. => true
  | .realizeOption .. => true
  | _ => false

def Eff.isCancel : Eff → Bool
  | .cancelOrder _ => true
  | _ => false

def Eff.isPlace : Eff → Bool
  | .placeStockMarket .. => true
  | .placeOptionMarket .. => true
  | _ => false

/-- Rust `f64 as u32`: truncate toward zero, saturating at the `u32` range
(negative values give 0; NaN is not modelled). -/
def f64_as_u32 (x : Rat) : Nat :=
  if x < 0 then 0 else min ((x.num / (x.den : Int)).toNat) 4294967295

/-- Whether a follow-up poll outcome reports any fill (`i2.filled_qty > 0.0`). -/
def secondFillReported : Option OrderInfo → Bool
  | some i2 => decide (0 < i2.filled_qty)
  | none => false

/-- `monitor_sell_stock_and_update` (main.rs): Filled commits the realize
with the original requested quantity; otherwise a positive partial fill is
realized, then — only for limit orders (`was_market = false`) — the order is
cancelled, and a positive remainder `max (orig_qty - filled) 0` is re-sent
as a market order, polled once, with a second realize iff that poll reports
a positive fill. -/
def monitor_sell_stock_and_update (st : BotState) (symbol : String) (orig_qty : Rat)
    (was_market : Bool) (order_id : String) (date : NaiveDate)
    (poll1 : Option OrderInfo) (place_res : Option String) (poll2 : Option OrderInfo) :
    BotState × List Eff :=
  match poll1 with
  | none => (st, [])
  | some info =>
    match info.status with
    | .Filled =>
      ((st.realize_stock_sell symbol orig_qty info.avg_fill_price date).1,
       [.realizeStock symbol orig_qty info.avg_fill_price, .save])
    | .PartiallyFilled | .Working | .Unknown _ =>
      let filled := info.filled_qty
      let step1 : BotState × List Eff :=
        if 0 < filled then
          ((st.realize_stock_sell symbol filled info.avg_fill_price date).1,
           [.realizeStock symbol filled info.avg_fill_price, .save])
        else (st, [])
      if was_market then step1
      else
        let effs2 := step1.2 ++ [Eff.cancelOrder order_id]
        let remaining := max (orig_qty - filled) 0
        if 0 < remaining then
          let effs3 := effs2 ++ [Eff.placeStockMarket symbol remaining]
          match place_res with
          | none => (step1.1, effs3)
          | some _ =>
            match poll2 with
            | none => (step1.1, effs3)
            | some i2 =>
              if 0 < i2.filled_qty then
                ((step1.1.realize_stock_sell symbol i2.filled_qty i2.avg_fill_price date).1,
                 effs3 ++ [.realizeStock symbol i2.filled_qty i2.avg_fill_price, .save])
              else (step1.1, effs3)
        else (step1.1, effs2)
    | .Canceled | .Rejected => (st, [])

/-- `monitor_sell_option_and_update` (main.rs).  Differences from the stock
monitor: the reported fill is cast `as u32` before the positivity test, the
remainder uses `saturating_sub`, and the fallback re-resolves the option
contract with `find_option_contract(...).unwrap()` — a failed resolution
(`resolve_ok = false`) panics the task, modelled as stopping with the ledger
as already updated and no further effect. -/
def monitor_sell_option_and_update (st : BotState) (symbol : String) (strike : Rat)
    (cp : Char) (expiry : String) (orig_qty : Nat) (was_market : Bool)
    (order_id : String) (date : NaiveDate) (poll1 : Option OrderInfo)
    (resolve_ok : Bool) (place_res : Option String) (poll2 : Option OrderInfo) :
    BotState × List Eff :=
  match poll1 with
  | none => (st, [])
  | some info =>
    match info.status with
    | .Filled =>
      ((st.realize_option_sell symbol strike cp expiry orig_qty
          info.avg_fill_price date).1,
       [.realizeOption symbol strike cp expiry orig_qty info.avg_fill_price, .save])
    | .PartiallyFilled | .Working | .Unknown _ =>
      let filled := f64_as_u32 info.filled_qty
      let step1 : BotState × List Eff :=
        if 0 < filled then
          ((st.realize_option_sell symbol strike cp expiry filled
              info.avg_fill_price date).1,
           [.realizeOption symbol strike cp expiry filled info.avg_fill_price, .save])
        else (st, [])
      if was_market then step1
      else
        let effs2 := step1.2 ++ [Eff.cancelOrder order_id]
        let remaining := orig_qty - filled
        if 0 < remaining then
          if resolve_ok then
            let effs3 := effs2 ++
              [Eff.placeOptionMarket symbol strike cp expiry (remaining : Rat)]
            match place_res with
            | none => (step1.1, effs3)
            | some _ =>
              match poll2 with
              | none => (step1.1, effs3)
              | some i2 =>
                if 0 < i2.filled_qty then
                  ((step1.1.realize_option_sell symbol strike cp expiry
                      (f64_as_u32 i2.filled_qty) i2.avg_fill_price date).1,
                   effs3 ++ [.realizeOption symbol strike cp expiry
                      (f64_as_u32 i2.filled_qty) i2.avg_fill_price, .save])
                else (step1.1, effs3)
          else (step1.1, effs2)
        else (step1.1, effs2)
    | .Canceled | .Rejected => (st, [])

/-- A holding that `position_qty_stock` / `upsert_stock_buy_with_cost` /
`realize_stock_sell` treat as matching the (already uppercased) symbol. -/
def stockMatches (sym : String) : Holding → Bool
  | .stock s _ _ => eq_ignore_ascii_case s sym
  | _ => false

/-- A holding matching the full option key as `upsert_option_buy_with_cost`
and `realize_option_sell` test it. -/
def optionMatches (sym : String) (strike : Rat) (cp_u : Char) (expiry : String) :
    Holding → Bool
  | .option s k c e _ _ =>
      eq_ignore_ascii_case s sym && decide (ratAbs (k - strike) < 1/1000000)
        && (c.toUpper == cp_u) && (e == expiry)
  | _ => false

theorem eq_ignore_ascii_case_refl (a : String) : eq_ignore_ascii_case a a = true := by
  simp [eq_ignore_ascii_case]

theorem realizeStockGo_eq_of_no_match (sym : String) (qty p : Rat) :
    ∀ l : List Holding, (∀ x ∈ l, stockMatches sym x = false) →
      realizeStockGo sym qty p l = (l, none)
  | [], _ => rfl
  | h :: t, hall => by
    have ht := realizeStockGo_eq_of_no_match sym qty p t
      (fun x hx => hall x (List.mem_cons_of_mem _ hx))
    have hh := hall h (List.mem_cons_self _ _)
    cases h with
    | stock s q a =>
      simp only [stockMatches] at hh
      simp [realizeStockGo, hh, ht]
    | option s k c e q a =>
      simp [realizeStockGo, ht]

theorem realizeStockGo_append (sym : String) (qty p : Rat) :
    ∀ (pre l : List Holding), (∀ x ∈ pre, stockMatches sym x = false) →
      realizeStockGo sym qty p (pre ++ l) =
        (pre ++ (realizeStockGo sym qty p l).1, (realizeStockGo sym qty p l).2)
  | [], l, _ => by simp
  | h :: t, l, hall => by
    have ht := realizeStockGo_append sym qty p t l
      (fun x hx => hall x (List.mem_cons_of_mem _ hx))
    have hh := hall h (List.mem_cons_self _ _)
    cases h with
    | stock s q a =>
      simp only [stockMatches] at hh
      simp [realizeStockGo, hh, ht]
    | option s k c e q a =>
      simp [realizeStockGo, ht]

theorem realizeOptionGo_eq_of_no_match (sym : String) (strike : Rat) (cp_u : Char)
    (expiry : String) (qty : Nat) (p : Rat) :
    ∀ l : List Holding, (∀ x ∈ l, optionMatches sym strike cp_u expiry x = false) →
      realizeOptionGo sym strike cp_u expiry qty p l = (l, none)
  | [], _ => rfl
  | h :: t, hall => by
    have ht := realizeOptionGo_eq_of_no_match sym strike cp_u expiry qty p t
      (fun x hx => hall x (List.mem_cons_of_mem _ hx))
    have hh := hall h (List.mem_cons_self _ _)
    cases h with
    | stock s q a =>
      simp [realizeOptionGo, ht]
    | option s k c e q a =>
      simp only [optionMatches] at hh
      simp only [realizeOptionGo]
      split
      · rename_i hcond
        rw [hcond] at hh
        exact absurd hh (by simp)
      · simp [ht]

theorem realizeOptionGo_append (sym : String) (strike : Rat) (cp_u : Char)
    (expiry : String) (qty : Nat) (p : Rat) :
    ∀ (pre l : List Holding), (∀ x ∈ pre, optionMatches sym strike cp_u expiry x = false) →
      realizeOptionGo sym strike cp_u expiry qty p (pre ++ l) =
        (pre ++ (realizeOptionGo sym strike cp_u expiry qty p l).1,
         (realizeOptionGo sym strike cp_u expiry qty p l).2)
  | [], l, _ => by simp
  | h :: t, l, hall => by
    have ht := realizeOptionGo_append sym strike cp_u expiry qty p t l
      (fun x hx => hall x (List.mem_cons_of_mem _ hx))
    have hh := hall h (List.mem_cons_self _ _)
    cases h with
    | stock s q a =>
      simp [realizeOptionGo, ht]
    | option s k c e q a =>
      simp only [optionMatches] at hh
      simp only [realizeOptionGo]
      split
      · rename_i hcond
        rw [hcond] at hh
        exact absurd hh (by simp)
      · simp [ht]

theorem upsertStockGo_eq_none_of_no_match (sym : String) (fq fp : Rat) :
    ∀ l : List Holding, (∀ x ∈ l, stockMatches sym x = false) →
      upsertStockGo sym fq fp l = none
  | [], _ => rfl
  | h :: t, hall => by
    have ht := upsertStockGo_eq_none_of_no_match sym fq fp t
      (fun x hx => hall x (List.mem_cons_of_mem _ hx))
    have hh := hall h (List.mem_cons_self _ _)
    cases h with
    | stock s q a =>
      simp only [stockMatches] at hh
      simp [upsertStockGo, hh, ht]
    | option s k c e q a =>
      simp [upsertStockGo, ht]

theorem upsertStockGo_append_single (sym : String) (fq fp : Rat) (s : String) (q a : Rat) :
    ∀ pre : List Holding, (∀ x ∈ pre, stockMatches sym x = false) →
      eq_ignore_ascii_case s sym = true →
      upsertStockGo sym fq fp (pre ++ [Holding.stock s q a]) =
        some (pre ++ [Holding.stock s (q + fq)
          (if 0 < q + fq then (a * q + fp * fq) / (q + fq) else 0)])
  | [], _, hmatch => by simp [upsertStockGo, hmatch]
  | h :: t, hall, hmatch => by
    have ht := upsertStockGo_append_single sym fq fp s q a t
      (fun x hx => hall x (List.mem_cons_of_mem _ hx)) hmatch
    have hh := hall h (List.mem_cons_self _ _)
    cases h with
    | stock s1 q1 a1 =>
      simp only [stockMatches] at hh
      simp [upsertStockGo, hh, ht]
    | option s1 k1 c1 e1 q1 a1 =>
      simp [upsertStockGo, ht]

theorem qtyGroup_false (r2 : List Char) : qtyGroup false r2 = some (none, r2) := rfl

theorem re_opt_match_false_qty (cs : List Char) (caps : OptCaps)
    (h : re_opt_match false cs = some caps) : caps.qty = none := by
  unfold re_opt_match at h
  repeat' split at h
  all_goals first
    | exact Option.noConfusion h
    | (simp_all [qtyGroup_false]; subst h; simp)

theorem re_stk_match_false_qty (cs : List Char) (caps : StkCaps)
    (h : re_stk_match false cs = some caps) : caps.qty = none := by
  unfold re_stk_match at h
  repeat' split at h
  all_goals first
    | exact Option.noConfusion h
    | (simp_all [qtyGroup_false]; subst h; simp)

theorem price_to_order_spec (price : List Char) (ot : OrderType) (lp : Option Rat)
    (h : price_to_order price = some (ot, lp)) :
    (toLowerL price = ['m'] → ot = .Market ∧ lp = none)
    ∧ (toLowerL price ≠ ['m'] →
        ∃ v, parse_f64 (toLowerL price) = some v ∧ ot = .Limit ∧ lp = some v) := by
  simp only [price_to_order] at h
  split at h
  · rename_i hm
    refine ⟨fun _ => ?_, fun hne => absurd hm hne⟩
    injection h with h2
    exact ⟨congrArg Prod.fst h2.symm, congrArg Prod.snd h2.symm⟩
  · rename_i hm
    refine ⟨fun hply => absurd hply hm, fun _ => ?_⟩
    split at h
    · exact absurd h (by simp)
    · rename_i v hv
      injection h with h2
      exact ⟨v, hv, congrArg Prod.fst h2.symm, congrArg Prod.snd h2.symm⟩

theorem conv_stock_fields (caps : StkCaps) (sig : TradeSignal)
    (h : conv_stock caps = some sig) :
    ∃ a q ot lp, price_to_order caps.price = some (ot, lp) ∧
      sig = .stock ⟨a, String.mk (toUpperL caps.symbol), q, ot, lp⟩ ∧
      (caps.qty = none → q = 1) := by
  unfold conv_stock at h
  cases hact : decodeAction caps.action with
  | none => rw [hact] at h; exact Option.noConfusion h
  | some action =>
    rw [hact] at h
    cases hqty : (match caps.qty with | some ds => parse_u32 ds | none => some 1) with
    | none => rw [hqty] at h; exact Option.noConfusion h
    | some qty =>
      rw [hqty] at h
      cases hpr : price_to_order caps.price with
      | none => rw [hpr] at h; exact Option.noConfusion h
      | some pr =>
        obtain ⟨ot, lp⟩ := pr
        rw [hpr] at h
        refine ⟨action, qty, ot, lp, rfl, (Option.some.inj h).symm, fun hq => ?_⟩
        rw [hq] at hqty
        exact (Option.some.inj hqty).symm

theorem conv_option_fields (caps : OptCaps) (sig : TradeSignal)
    (h : conv_option caps = some sig) :
    ∃ a q strike ot lp, price_to_order caps.price = some (ot, lp) ∧
      sig = .option ⟨a, String.mk (toUpperL caps.symbol), strike, caps.cp.toUpper,
        String.mk caps.expiry, q, ot, lp⟩ ∧
      (caps.qty = none → q = 1) := by
  unfold conv_option at h
  cases hact : decodeAction caps.action with
  | none => rw [hact] at h; exact Option.noConfusion h
  | some action =>
    rw [hact] at h
    cases hqty : (match caps.qty with | some ds => parse_u32 ds | none => some 1) with
    | none => rw [hqty] at h; exact Option.noConfusion h
    | some qty =>
      rw [hqty] at h
      cases hstrike : parse_f64 caps.strike with
      | none => rw [hstrike] at h; exact Option.noConfusion h
      | some strike =>
        rw [hstrike] at h
        cases hpr : price_to_order caps.price with
        | none => rw [hpr] at h; exact Option.noConfusion h
        | some pr =>
          obtain ⟨ot, lp⟩ := pr
          rw [hpr] at h
          refine ⟨action, qty, strike, ot, lp, rfl, (Option.some.inj h).symm, fun hq => ?_⟩
          rw [hq] at hqty
          exact (Option.some.inj hqty).symm

theorem monitor_sell_stock_nonfilled (st : BotState) (symbol : String)
    (orig_qty : Rat) (was_market : Bool) (order_id : String) (date : NaiveDate)
    (fq afp : Rat) (place_res : Option String) (poll2 : Option OrderInfo)
    (status : OrderStatus)
    (hs : status = .PartiallyFilled ∨ status = .Working ∨ ∃ r, status = .Unknown r) :
    monitor_sell_stock_and_update st symbol orig_qty was_market order_id date
        (some ⟨status, fq, afp⟩) place_res poll2 =
      (let step1 : BotState × List Eff :=
        if 0 < fq then
          ((st.realize_stock_sell symbol fq afp date).1,
           [.realizeStock symbol fq afp, .save])
        else (st, []);
      if was_market then step1
      else
        let effs2 := step1.2 ++ [Eff.cancelOrder order_id]
        let remaining := max (orig_qty - fq) 0
        if 0 < remaining then
          let effs3 := effs2 ++ [Eff.placeStockMarket symbol remaining]
          match place_res with
          | none => (step1.1, effs3)
          | some _ =>
            match poll2 with
            | none => (step1.1, effs3)
            | some i2 =>
              if 0 < i2.filled_qty then
                ((step1.1.realize_stock_sell symbol i2.filled_qty i2.avg_fill_price date).1,
                 effs3 ++ [.realizeStock symbol i2.filled_qty i2.avg_fill_price, .save])
              else (step1.1, effs3)
        else (step1.1, effs2)) := by
  rcases hs with h | h | ⟨r, h⟩ <;> subst h <;> rfl

theorem monitor_sell_option_nonfilled (st : BotState) (symbol : String) (strike : Rat)
    (cp : Char) (expiry : String) (orig_qty : Nat) (was_market : Bool)
    (order_id : String) (date : NaiveDate) (fq afp : Rat) (resolve_ok : Bool)
    (place_res : Option String) (poll2 : Option OrderInfo) (status : OrderStatus)
    (hs : status = .PartiallyFilled ∨ status = .Working ∨ ∃ r, status = .Unknown r) :
    monitor_sell_option_and_update st symbol strike cp expiry orig_qty was_market
        order_id date (some ⟨status, fq, afp⟩) resolve_ok place_res poll2 =
      (let filled := f64_as_u32 fq;
      let step1 : BotState × List Eff :=
        if 0 < filled then
          ((st.realize_option_sell symbol strike cp expiry filled afp date).1,
           [.realizeOption symbol strike cp expiry filled afp, .save])
        else (st, []);
      if was_market then step1
      else
        let effs2 := step1.2 ++ [Eff.cancelOrder order_id]
        let remaining := orig_qty - filled
        if 0 < remaining then
          if resolve_ok then
            let effs3 := effs2 ++
              [Eff.placeOptionMarket symbol strike cp expiry (remaining : Rat)]
            match place_res with
            | none => (step1.1, effs3)
            | some _ =>
              match poll2 with
              | none => (step1.1, effs3)
              | some i2 =>
                if 0 < i2.filled_qty then
                  ((step1.1.realize_option_sell symbol strike cp expiry
                      (f64_as_u32 i2.filled_qty) i2.avg_fill_price date).1,
                   effs3 ++ [.realizeOption symbol strike cp expiry
                      (f64_as_u32 i2.filled_qty) i2.avg_fill_price, .save])
                else (step1.1, effs3)
          else (step1.1, effs2)
        else (step1.1, effs2)) := by
  rcases hs with h | h | ⟨r, h⟩ <;> subst h <;> rfl

end Trader

namespace Trader

/-- C1: the spec claims `position_qty_option` counts only option holdings
whose expiry equals the requested expiry, so a holding with the same symbol,
strike and call/put but a different expiry contributes nothing.  The code's
guard compares the holding's expiry with itself, so the single holding below
(expiry "09/20") is counted by a query for expiry "08/16": the sum is 5, not
the 0 the claim requires. -/
theorem position_qty_option_counts_other_expiry :
    (BotState.mk [Holding.option "AAPL" 150 'C' "09/20" 5 1] []).position_qty_option
      "AAPL" 150 'C' "08/16" = 5 := by
  with_unfolding_all decide

/-- C5: selling against the first matching holding realizes
`(sellPrice - avgCost) * min(sellQty, held)` (times 100 per contract for
options), decrements the held quantity by that amount leaving the average
cost unchanged, removes the holding when the remainder is `≤ 1e-9` (exactly
zero for options), and appends exactly one `PlEntry` with the realized
amount. -/
theorem realize_sell_first_match_spec :
    (∀ (pre post : List Holding) (dpl : List PlEntry) (s sym : String)
        (H A qty p : Rat) (d : NaiveDate),
      (∀ x ∈ pre, stockMatches sym.toUpper x = false) →
      eq_ignore_ascii_case s sym.toUpper = true →
      BotState.realize_stock_sell ⟨pre ++ Holding.stock s H A :: post, dpl⟩ sym qty p d =
        (⟨pre ++ (if H - min qty H ≤ 1/1000000000 then post
                  else Holding.stock s (H - min qty H) A :: post),
          dpl ++ [⟨d, sym.toUpper, min qty H, (p - A) * min qty H⟩]⟩,
         (p - A) * min qty H))
    ∧ (∀ (pre post : List Holding) (dpl : List PlEntry) (s sym : String)
        (k strike : Rat) (c cp : Char) (e expiry : String) (H qty : Nat)
        (A p : Rat) (d : NaiveDate),
      (∀ x ∈ pre, optionMatches sym.toUpper strike cp.toUpper expiry x = false) →
      (eq_ignore_ascii_case s sym.toUpper && decide (ratAbs (k - strike) < 1/1000000)
        && (c.toUpper == cp.toUpper) && (e == expiry)) = true →
      BotState.realize_option_sell ⟨pre ++ Holding.option s k c e H A :: post, dpl⟩
          sym strike cp expiry qty p d =
        (⟨pre ++ (if H - min qty H = 0 then post
                  else Holding.option s k c e (H - min qty H) A :: post),
          dpl ++ [⟨d, optionAssetLabel sym.toUpper strike cp.toUpper expiry,
                   ((min qty H : Nat) : Rat), (p - A) * ((min qty H : Nat) : Rat) * 100⟩]⟩,
         (p - A) * ((min qty H : Nat) : Rat) * 100)) := by
  constructor
  · intro pre post dpl s sym H A qty p d h1 h2
    simp only [BotState.realize_stock_sell]
    rw [realizeStockGo_append _ _ _ _ _ h1]
    simp [realizeStockGo, h2]
  · intro pre post dpl s sym k strike c cp e expiry H qty A p d h1 h2
    simp only [BotState.realize_option_sell]
    rw [realizeOptionGo_append _ _ _ _ _ _ _ _ h1]
    simp only [realizeOptionGo]
    rw [if_pos h2]

/-- C5 witness: the spec's own example — holding 100 shares at average cost
10, selling 40 at 12 realizes 80, leaves 60 shares at cost 10, and appends
one `PlEntry`. -/
theorem realize_sell_first_match_spec_witness :
    BotState.realize_stock_sell ⟨[Holding.stock "AAPL" 100 10], []⟩ "AAPL" 40 12 ⟨2025, 8, 16⟩ =
      (⟨[Holding.stock "AAPL" 60 10], [⟨⟨2025, 8, 16⟩, "AAPL", 40, 80⟩]⟩, 80) := by
  have h := realize_sell_first_match_spec.1 [] [] [] "AAPL" "AAPL" 100 10 40 12
    ⟨2025, 8, 16⟩ (by simp) (by with_unfolding_all decide)
  with_unfolding_all exact h

/-- C10: when no holding matches the requested instrument key,
`realize_stock_sell` and `realize_option_sell` return 0 and leave the
ledger unchanged (no holding touched, no `PlEntry` appended). -/
theorem realize_sell_no_match_is_noop :
    (∀ (st : BotState) (sym : String) (qty p : Rat) (d : NaiveDate),
      (∀ x ∈ st.holdings, stockMatches sym.toUpper x = false) →
      BotState.realize_stock_sell st sym qty p d = (st, 0))
    ∧ (∀ (st : BotState) (sym : String) (strike : Rat) (cp : Char) (expiry : String)
        (qty : Nat) (p : Rat) (d : NaiveDate),
      (∀ x ∈ st.holdings, optionMatches sym.toUpper strike cp.toUpper expiry x = false) →
      BotState.realize_option_sell st sym strike cp expiry qty p d = (st, 0)) := by
  constructor
  · intro st sym qty p d h
    simp only [BotState.realize_stock_sell]
    rw [realizeStockGo_eq_of_no_match _ _ _ _ h]
  · intro st sym strike cp expiry qty p d h
    simp only [BotState.realize_option_sell]
    rw [realizeOptionGo_eq_of_no_match _ _ _ _ _ _ _ h]

/-- C10 witness: selling into a ledger holding only a different-symbol stock
and a different-expiry option changes nothing and realizes 0. -/
theorem realize_sell_no_match_is_noop_witness :
    BotState.realize_stock_sell ⟨[Holding.stock "TSLA" 3 1], []⟩ "AAPL" 1 5 ⟨2025, 8, 16⟩ =
      (⟨[Holding.stock "TSLA" 3 1], []⟩, 0)
    ∧ BotState.realize_option_sell ⟨[Holding.option "AAPL" 150 'C' "09/20" 5 1], []⟩
        "AAPL" 150 'C' "08/16" 5 2 ⟨2025, 8, 16⟩ =
      (⟨[Holding.option "AAPL" 150 'C' "09/20" 5 1], []⟩, 0) := by
  constructor
  · exact realize_sell_no_match_is_noop.1 ⟨[Holding.stock "TSLA" 3 1], []⟩ "AAPL" 1 5
      ⟨2025, 8, 16⟩ (by intro x hx; simp at hx; subst hx; with_unfolding_all decide)
  · exact realize_sell_no_match_is_noop.2 ⟨[Holding.option "AAPL" 150 'C' "09/20" 5 1], []⟩
      "AAPL" 150 'C' "08/16" 5 2 ⟨2025, 8, 16⟩
      (by intro x hx; simp at hx; subst hx; with_unfolding_all decide)

/-- C6: two buy-fills q1@p1 then q2@p2 against a ledger with no stock holding
for the symbol leave the original holdings untouched and append a single
holding of quantity `q1+q2` at the weighted average cost
`(q1*p1 + q2*p2)/(q1+q2)`; applying the fills in the opposite order yields
exactly the same ledger (equality over `Rat` is stronger than the claim's
"up to floating tolerance"). -/
theorem upsert_stock_buy_weighted_average (st : BotState) (sym : String)
    (q1 p1 q2 p2 : Rat) (hq1 : 0 < q1) (hq2 : 0 < q2) (hp1 : 0 < p1) (hp2 : 0 < p2)
    (hnone : ∀ x ∈ st.holdings, stockMatches sym.toUpper x = false) :
    ((st.upsert_stock_buy_with_cost sym q1 p1).upsert_stock_buy_with_cost sym q2 p2) =
      { st with holdings := st.holdings ++
          [Holding.stock sym.toUpper (q1 + q2) ((q1 * p1 + q2 * p2) / (q1 + q2))] }
    ∧ ((st.upsert_stock_buy_with_cost sym q2 p2).upsert_stock_buy_with_cost sym q1 p1) =
      { st with holdings := st.holdings ++
          [Holding.stock sym.toUpper (q1 + q2) ((q1 * p1 + q2 * p2) / (q1 + q2))] } := by
  have claim : ∀ a b c e : Rat, 0 < a → 0 < b →
      ((st.upsert_stock_buy_with_cost sym a c).upsert_stock_buy_with_cost sym b e) =
        { st with holdings := st.holdings ++
            [Holding.stock sym.toUpper (a + b) ((c * a + e * b) / (a + b))] } := by
    intro a b c e ha hb
    have hgo : upsertStockGo sym.toUpper a c st.holdings = none :=
      upsertStockGo_eq_none_of_no_match _ _ _ _ hnone
    have hfirst : st.upsert_stock_buy_with_cost sym a c =
        { st with holdings := st.holdings ++ [Holding.stock sym.toUpper a c] } := by
      simp [BotState.upsert_stock_buy_with_cost, hgo]
    rw [hfirst]
    have hsecond := upsertStockGo_append_single sym.toUpper b e sym.toUpper a c
      st.holdings hnone (eq_ignore_ascii_case_refl _)
    simp only [BotState.upsert_stock_buy_with_cost, hsecond]
    rw [if_pos (by linarith)]
  constructor
  · rw [claim q1 q2 p1 p2 hq1 hq2]
    rw [mul_comm p1 q1, mul_comm p2 q2]
  · rw [claim q2 q1 p2 p1 hq2 hq1]
    rw [mul_comm p2 q2, mul_comm p1 q1, add_comm q2 q1, add_comm (q2 * p2) (q1 * p1)]

/-- C6 witness: buys of 1@2 then 3@4 (either order) on an empty ledger give
one holding of 4 shares at average cost 7/2. -/
theorem upsert_stock_buy_weighted_average_witness :
    ((BotState.mk [] []).upsert_stock_buy_with_cost "aapl" 1 2).upsert_stock_buy_with_cost
        "aapl" 3 4 =
      BotState.mk [Holding.stock "AAPL" 4 (7/2)] []
    ∧ ((BotState.mk [] []).upsert_stock_buy_with_cost "aapl" 3 4).upsert_stock_buy_with_cost
        "aapl" 1 2 =
      BotState.mk [Holding.stock "AAPL" 4 (7/2)] [] := by
  have h := upsert_stock_buy_weighted_average (BotState.mk [] []) "aapl" 1 2 3 4
    (by norm_num) (by norm_num) (by norm_num) (by norm_num) (by simp)
  constructor
  · rw [h.1]
    with_unfolding_all decide
  · rw [h.2]
    with_unfolding_all decide

/-- C2: the spec claims the symbol is preserved verbatim (no case
normalization), e.g. parsing "stc 50 nvda @ m" yields symbol "nvda".  The
code passes the captured symbol through `to_uppercase()`, so it yields
"NVDA". -/
theorem parse_signal_uppercases_symbol :
    parse_signal "stc 50 nvda @ m" =
      some (.stock ⟨.STC, "NVDA", 50, .Market, none⟩) := by
  with_unfolding_all decide

/-- C3: the spec claims at least one whitespace character is required
immediately before `@`, with "BTO 10 AAPL@m" as a non-match example (the
source's own tests assert the same).  The regexes read `\s*@`, so that very
input parses successfully instead of returning no result. -/
theorem parse_signal_accepts_at_without_space :
    parse_signal "BTO 10 AAPL@m" =
      some (.stock ⟨.BTO, "AAPL", 10, .Market, none⟩) := by
  with_unfolding_all decide

/-- C9: inputs accepted through the no-quantity grammars (patterns 2 and 4)
produce quantity 1; and in every accepted conversion a price token `m`/`M`
yields OrderType.Market with no limit price, while any other (decimal) price
token yields OrderType.Limit with the parsed number as the limit price. -/
theorem parse_qty_default_and_price_rules :
    (∀ (cs : List Char) (caps : OptCaps) (sig : TradeSignal),
      re_opt_match false cs = some caps → conv_option caps = some sig →
      sig.quantity = 1)
    ∧ (∀ (cs : List Char) (caps : StkCaps) (sig : TradeSignal),
      re_stk_match false cs = some caps → conv_stock caps = some sig →
      sig.quantity = 1)
    ∧ (∀ (caps : StkCaps) (sig : TradeSignal), conv_stock caps = some sig →
      (toLowerL caps.price = ['m'] →
        sig.order_type = .Market ∧ sig.limit_price = none)
      ∧ (toLowerL caps.price ≠ ['m'] →
        ∃ v, parse_f64 (toLowerL caps.price) = some v ∧
          sig.order_type = .Limit ∧ sig.limit_price = some v))
    ∧ (∀ (caps : OptCaps) (sig : TradeSignal), conv_option caps = some sig →
      (toLowerL caps.price = ['m'] →
        sig.order_type = .Market ∧ sig.limit_price = none)
      ∧ (toLowerL caps.price ≠ ['m'] →
        ∃ v, parse_f64 (toLowerL caps.price) = some v ∧
          sig.order_type = .Limit ∧ sig.limit_price = some v)) := by
  refine ⟨?_, ?_, ?_, ?_⟩
  · intro cs caps sig hre hconv
    obtain ⟨a, q, strike, ot, lp, hpr, hsig, hq1⟩ := conv_option_fields caps sig hconv
    rw [hsig]
    simp [TradeSignal.quantity, hq1 (re_opt_match_false_qty cs caps hre)]
  · intro cs caps sig hre hconv
    obtain ⟨a, q, ot, lp, hpr, hsig, hq1⟩ := conv_stock_fields caps sig hconv
    rw [hsig]
    simp [TradeSignal.quantity, hq1 (re_stk_match_false_qty cs caps hre)]
  · intro caps sig hconv
    obtain ⟨a, q, ot, lp, hpr, hsig, h1⟩ := conv_stock_fields caps sig hconv
    have hspec := price_to_order_spec caps.price ot lp hpr
    refine ⟨fun hm => ?_, fun hm => ?_⟩
    · obtain ⟨hot, hlp⟩ := hspec.1 hm
      rw [hsig]
      simp [TradeSignal.order_type, TradeSignal.limit_price, hot, hlp]
    · obtain ⟨v, hv, hot, hlp⟩ := hspec.2 hm
      refine ⟨v, hv, ?_, ?_⟩
      · rw [hsig]; simp [TradeSignal.order_type, hot]
      · rw [hsig]; simp [TradeSignal.limit_price, hlp]
  · intro caps sig hconv
    obtain ⟨a, q, strike, ot, lp, hpr, hsig, h1⟩ := conv_option_fields caps sig hconv
    have hspec := price_to_order_spec caps.price ot lp hpr
    refine ⟨fun hm => ?_, fun hm => ?_⟩
    · obtain ⟨hot, hlp⟩ := hspec.1 hm
      rw [hsig]
      simp [TradeSignal.order_type, TradeSignal.limit_price, hot, hlp]
    · obtain ⟨v, hv, hot, hlp⟩ := hspec.2 hm
      refine ⟨v, hv, ?_, ?_⟩
      · rw [hsig]; simp [TradeSignal.order_type, hot]
      · rw [hsig]; simp [TradeSignal.limit_price, hlp]

/-- C9 witness: "BTO AAPL 150C 08/16 @ 2.50" (pattern 2) and "bto aapl @ m"
(pattern 4) produce quantity 1; price token `M` gives a market order with no
limit, price token `2.50` gives a limit order at 5/2. -/
theorem parse_qty_default_and_price_rules_witness :
    TradeSignal.quantity
        (.option ⟨.BTO, "AAPL", 150, 'C', "08/16", 1, .Limit, some (5/2)⟩) = 1
    ∧ TradeSignal.quantity (.stock ⟨.BTO, "AAPL", 1, .Market, none⟩) = 1
    ∧ (TradeSignal.order_type (.stock ⟨.BTO, "AAPL", 10, .Market, none⟩) = .Market
        ∧ TradeSignal.limit_price (.stock ⟨.BTO, "AAPL", 10, .Market, none⟩) = none)
    ∧ (TradeSignal.order_type
          (.option ⟨.BTO, "AAPL", 150, 'C', "08/16", 1, .Limit, some (5/2)⟩) = .Limit
        ∧ TradeSignal.limit_price
          (.option ⟨.BTO, "AAPL", 150, 'C', "08/16", 1, .Limit, some (5/2)⟩)
            = some (5/2)) := by
  have h := parse_qty_default_and_price_rules
  refine ⟨?_, ?_, ?_, ?_⟩
  · exact h.1 "BTO AAPL 150C 08/16 @ 2.50".data
      ⟨['B', 'T', 'O'], none, ['A', 'A', 'P', 'L'], ['1', '5', '0'], 'C',
       ['0', '8', '/', '1', '6'], ['2', '.', '5', '0']⟩
      (.option ⟨.BTO, "AAPL", 150, 'C', "08/16", 1, .Limit, some (5/2)⟩)
      (by with_unfolding_all decide) (by with_unfolding_all decide)
  · exact h.2.1 "bto aapl @ m".data
      ⟨['b', 't', 'o'], none, ['a', 'a', 'p', 'l'], ['m']⟩
      (.stock ⟨.BTO, "AAPL", 1, .Market, none⟩)
      (by with_unfolding_all decide) (by with_unfolding_all decide)
  · exact (h.2.2.1
      ⟨['B', 'T', 'O'], some ['1', '0'], ['A', 'A', 'P', 'L'], ['M']⟩
      (.stock ⟨.BTO, "AAPL", 10, .Market, none⟩)
      (by with_unfolding_all decide)).1 (by with_unfolding_all decide)
  · have h4 := (h.2.2.2
      ⟨['B', 'T', 'O'], none, ['A', 'A', 'P', 'L'], ['1', '5', '0'], 'C',
       ['0', '8', '/', '1', '6'], ['2', '.', '5', '0']⟩
      (.option ⟨.BTO, "AAPL", 150, 'C', "08/16", 1, .Limit, some (5/2)⟩)
      (by with_unfolding_all decide)).2 (by with_unfolding_all decide)
    obtain ⟨v, hv, hot, hlp⟩ := h4
    have hv2 : parse_f64 (toLowerL ['2', '.', '5', '0']) = some ((5 : Rat)/2) := by
      with_unfolding_all decide
    rw [hv2] at hv
    have hveq := Option.some.inj hv
    rw [← hveq] at hlp
    exact ⟨hot, hlp⟩

/-- C8: a sell order that reaches Filled status by the polling deadline is
committed through the realize operation with the original requested
quantity — not the broker-reported `filled_qty`, over which the statement is
universally quantified — together with the reported average fill price. -/
theorem monitor_sell_filled_uses_requested_qty :
    (∀ (st : BotState) (symbol : String) (orig_qty : Rat) (was_market : Bool)
        (order_id : String) (date : NaiveDate) (info : OrderInfo)
        (place_res : Option String) (poll2 : Option OrderInfo),
      info.status = .Filled →
      monitor_sell_stock_and_update st symbol orig_qty was_market order_id date
          (some info) place_res poll2 =
        ((st.realize_stock_sell symbol orig_qty info.avg_fill_price date).1,
         [.realizeStock symbol orig_qty info.avg_fill_price, .save]))
    ∧ (∀ (st : BotState) (symbol : String) (strike : Rat) (cp : Char)
        (expiry : String) (orig_qty : Nat) (was_market : Bool) (order_id : String)
        (date : NaiveDate) (info : OrderInfo) (resolve_ok : Bool)
        (place_res : Option String) (poll2 : Option OrderInfo),
      info.status = .Filled →
      monitor_sell_option_and_update st symbol strike cp expiry orig_qty was_market
          order_id date (some info) resolve_ok place_res poll2 =
        ((st.realize_option_sell symbol strike cp expiry orig_qty
            info.avg_fill_price date).1,
         [.realizeOption symbol strike cp expiry orig_qty info.avg_fill_price,
          .save])) := by
  constructor
  · intro st symbol orig_qty was_market order_id date info place_res poll2 hs
    obtain ⟨status, fq, afp⟩ := info
    change status = OrderStatus.Filled at hs
    subst hs
    rfl
  · intro st symbol strike cp expiry orig_qty was_market order_id date info
      resolve_ok place_res poll2 hs
    obtain ⟨status, fq, afp⟩ := info
    change status = OrderStatus.Filled at hs
    subst hs
    rfl

/-- C8 witness: a stock sell of 10 shares reported Filled with
`filled_qty = 3` is still realized for 10 shares at the reported price 12;
an option sell of 2 contracts reported Filled with `filled_qty = 1` is
realized for 2 contracts at the reported price 3. -/
theorem monitor_sell_filled_uses_requested_qty_witness :
    monitor_sell_stock_and_update ⟨[Holding.stock "AAPL" 100 10], []⟩ "AAPL" 10 false
        "oid" ⟨2025, 8, 16⟩ (some ⟨.Filled, 3, 12⟩) none none =
      (⟨[Holding.stock "AAPL" 90 10], [⟨⟨2025, 8, 16⟩, "AAPL", 10, 20⟩]⟩,
       [.realizeStock "AAPL" 10 12, .save])
    ∧ monitor_sell_option_and_update ⟨[Holding.option "AAPL" 150 'C' "08/16" 5 1], []⟩
        "AAPL" 150 'C' "08/16" 2 false "oid" ⟨2025, 8, 16⟩ (some ⟨.Filled, 1, 3⟩)
        true none none =
      (⟨[Holding.option "AAPL" 150 'C' "08/16" 3 1],
        [⟨⟨2025, 8, 16⟩, optionAssetLabel "AAPL" 150 'C' "08/16", 2, 400⟩]⟩,
       [.realizeOption "AAPL" 150 'C' "08/16" 2 3, .save]) := by
  constructor
  · have h := monitor_sell_filled_uses_requested_qty.1
      ⟨[Holding.stock "AAPL" 100 10], []⟩ "AAPL" 10 false "oid" ⟨2025, 8, 16⟩
      ⟨.Filled, 3, 12⟩ none none rfl
    rw [h]
    with_unfolding_all decide
  · have h := monitor_sell_filled_uses_requested_qty.2
      ⟨[Holding.option "AAPL" 150 'C' "08/16" 5 1], []⟩ "AAPL" 150 'C' "08/16" 2
      false "oid" ⟨2025, 8, 16⟩ ⟨.Filled, 1, 3⟩ true none none rfl
    rw [h]
    with_unfolding_all decide

/-- C4: a sell order not fully filled at the deadline (partially filled,
working, or unknown status) yields: one partial realize iff any quantity was
filled; a cancel iff the original order was a limit order; when it was a
limit order and the remainder `orig - filled` (floored at zero) is positive,
exactly one market re-submission for exactly that remainder; and a second
realize iff the re-submission succeeded and its single follow-up poll
reports a positive fill — never more than one fallback.  For the option
monitor the reported fill is cast `as u32` first, and the conclusion assumes
the contract re-resolution succeeds (`resolve_ok = true`), whose failure
path the spec documents separately as a known fragility. -/
theorem monitor_sell_timeout_fallback_spec :
    (∀ (st : BotState) (symbol : String) (orig_qty : Rat) (was_market : Bool)
        (order_id : String) (date : NaiveDate) (info : OrderInfo)
        (place_res : Option String) (poll2 : Option OrderInfo) (effs : List Eff),
      (info.status = .PartiallyFilled ∨ info.status = .Working ∨
        ∃ r, info.status = .Unknown r) →
      effs = (monitor_sell_stock_and_update st symbol orig_qty was_market order_id
        date (some info) place_res poll2).2 →
      ((effs.filter Eff.isRealize).length =
          (if 0 < info.filled_qty then 1 else 0) +
          (if was_market = false ∧ 0 < max (orig_qty - info.filled_qty) 0 ∧
              place_res.isSome = true ∧ secondFillReported poll2 = true
           then 1 else 0))
      ∧ (effs.filter Eff.isCancel =
          if was_market then [] else [Eff.cancelOrder order_id])
      ∧ (effs.filter Eff.isPlace =
          if was_market = false ∧ 0 < max (orig_qty - info.filled_qty) 0
          then [Eff.placeStockMarket symbol (max (orig_qty - info.filled_qty) 0)]
          else [])
      ∧ (0 < info.filled_qty →
          Eff.realizeStock symbol info.filled_qty info.avg_fill_price ∈ effs))
    ∧ (∀ (st : BotState) (symbol : String) (strike : Rat) (cp : Char)
        (expiry : String) (orig_qty : Nat) (was_market : Bool) (order_id : String)
        (date : NaiveDate) (info : OrderInfo) (place_res : Option String)
        (poll2 : Option OrderInfo) (effs : List Eff),
      (info.status = .PartiallyFilled ∨ info.status = .Working ∨
        ∃ r, info.status = .Unknown r) →
      effs = (monitor_sell_option_and_update st symbol strike cp expiry orig_qty
        was_market order_id date (some info) true place_res poll2).2 →
      ((effs.filter Eff.isRealize).length =
          (if 0 < f64_as_u32 info.filled_qty then 1 else 0) +
          (if was_market = false ∧ 0 < orig_qty - f64_as_u32 info.filled_qty ∧
              place_res.isSome = true ∧ secondFillReported poll2 = true
           then 1 else 0))
      ∧ (effs.filter Eff.isCancel =
          if was_market then [] else [Eff.cancelOrder order_id])
      ∧ (effs.filter Eff.isPlace =
          if was_market = false ∧ 0 < orig_qty - f64_as_u32 info.filled_qty
          then [Eff.placeOptionMarket symbol strike cp expiry
                  ((orig_qty - f64_as_u32 info.filled_qty : Nat) : Rat)]
          else [])
      ∧ (0 < f64_as_u32 info.filled_qty →
          Eff.realizeOption symbol strike cp expiry (f64_as_u32 info.filled_qty)
            info.avg_fill_price ∈ effs)) := by
  constructor
  · intro st symbol orig_qty was_market order_id date info place_res poll2 effs hs heffs
    obtain ⟨status, fq, afp⟩ := info
    rw [monitor_sell_stock_nonfilled st symbol orig_qty was_market order_id date
      fq afp place_res poll2 status hs] at heffs
    subst heffs
    by_cases hw : was_market
    · by_cases h1 : 0 < fq <;>
        simp [hw, h1, List.filter_append, Eff.isRealize, Eff.isCancel, Eff.isPlace]
    · by_cases hrem : 0 < max (orig_qty - fq) 0
      · cases place_res with
        | none =>
          by_cases h1 : 0 < fq <;>
            simp [hw, h1, hrem, List.filter_append, Eff.isRealize, Eff.isCancel,
              Eff.isPlace, secondFillReported]
        | some mid =>
          cases poll2 with
          | none =>
            by_cases h1 : 0 < fq <;>
              simp [hw, h1, hrem, List.filter_append, Eff.isRealize, Eff.isCancel,
                Eff.isPlace, secondFillReported]
          | some i2 =>
            by_cases h2 : 0 < i2.filled_qty <;> by_cases h1 : 0 < fq <;>
              simp [hw, h1, h2, hrem, List.filter_append, Eff.isRealize,
                Eff.isCancel, Eff.isPlace, secondFillReported]
      · by_cases h1 : 0 < fq <;>
          simp [hw, h1, hrem, List.filter_append, Eff.isRealize, Eff.isCancel,
            Eff.isPlace, secondFillReported]
  · intro st symbol strike cp expiry orig_qty was_market order_id date info
      place_res poll2 effs hs heffs
    obtain ⟨status, fq, afp⟩ := info
    rw [monitor_sell_option_nonfilled st symbol strike cp expiry orig_qty was_market
      order_id date fq afp true place_res poll2 status hs] at heffs
    subst heffs
    by_cases hw : was_market
    · by_cases h1 : 0 < f64_as_u32 fq <;>
        simp [hw, h1, List.filter_append, Eff.isRealize, Eff.isCancel, Eff.isPlace]
    · by_cases hrem : 0 < orig_qty - f64_as_u32 fq
      · cases place_res with
        | none =>
          by_cases h1 : 0 < f64_as_u32 fq <;>
            simp [hw, h1, hrem, List.filter_append, Eff.isRealize, Eff.isCancel,
              Eff.isPlace, secondFillReported]
        | some mid =>
          cases poll2 with
          | none =>
            by_cases h1 : 0 < f64_as_u32 fq <;>
              simp [hw, h1, hrem, List.filter_append, Eff.isRealize, Eff.isCancel,
                Eff.isPlace, secondFillReported]
          | some i2 =>
            by_cases h2 : 0 < i2.filled_qty <;> by_cases h1 : 0 < f64_as_u32 fq <;>
              simp [hw, h1, h2, hrem, List.filter_append, Eff.isRealize,
                Eff.isCancel, Eff.isPlace, secondFillReported]
      · by_cases h1 : 0 < f64_as_u32 fq <;>
          simp [hw, h1, hrem, List.filter_append, Eff.isRealize, Eff.isCancel,
            Eff.isPlace, secondFillReported]

/-- C4 witness: a limit stock sell of 10 with 4 filled at timeout produces
realize(4), cancel, market re-submission of 6, and a second realize when the
follow-up poll reports 6 filled; a limit option sell of 5 contracts with 2
filled produces the analogous trace with a re-submission of 3. -/
theorem monitor_sell_timeout_fallback_spec_witness :
    (([Eff.realizeStock "AAPL" 4 11, Eff.save, Eff.cancelOrder "oid",
       Eff.placeStockMarket "AAPL" 6, Eff.realizeStock "AAPL" 6 9,
       Eff.save].filter Eff.isRealize).length = 2
    ∧ [Eff.realizeStock "AAPL" 4 11, Eff.save, Eff.cancelOrder "oid",
       Eff.placeStockMarket "AAPL" 6, Eff.realizeStock "AAPL" 6 9,
       Eff.save].filter Eff.isCancel = [Eff.cancelOrder "oid"]
    ∧ [Eff.realizeStock "AAPL" 4 11, Eff.save, Eff.cancelOrder "oid",
       Eff.placeStockMarket "AAPL" 6, Eff.realizeStock "AAPL" 6 9,
       Eff.save].filter Eff.isPlace = [Eff.placeStockMarket "AAPL" 6]
    ∧ Eff.realizeStock "AAPL" 4 11 ∈
        [Eff.realizeStock "AAPL" 4 11, Eff.save, Eff.cancelOrder "oid",
         Eff.placeStockMarket "AAPL" 6, Eff.realizeStock "AAPL" 6 9, Eff.save])
    ∧ (([Eff.realizeOption "AAPL" 150 'C' "08/16" 2 3, Eff.save,
        Eff.cancelOrder "oid2", Eff.placeOptionMarket "AAPL" 150 'C' "08/16" 3,
        Eff.realizeOption "AAPL" 150 'C' "08/16" 3 4,
        Eff.save].filter Eff.isRealize).length = 2
    ∧ [Eff.realizeOption "AAPL" 150 'C' "08/16" 2 3, Eff.save,
       Eff.cancelOrder "oid2", Eff.placeOptionMarket "AAPL" 150 'C' "08/16" 3,
       Eff.realizeOption "AAPL" 150 'C' "08/16" 3 4,
       Eff.save].filter Eff.isCancel = [Eff.cancelOrder "oid2"]
    ∧ [Eff.realizeOption "AAPL" 150 'C' "08/16" 2 3, Eff.save,
       Eff.cancelOrder "oid2", Eff.placeOptionMarket "AAPL" 150 'C' "08/16" 3,
       Eff.realizeOption "AAPL" 150 'C' "08/16" 3 4,
       Eff.save].filter Eff.isPlace = [Eff.placeOptionMarket "AAPL" 150 'C' "08/16" 3]
    ∧ Eff.realizeOption "AAPL" 150 'C' "08/16" 2 3 ∈
        [Eff.realizeOption "AAPL" 150 'C' "08/16" 2 3, Eff.save,
         Eff.cancelOrder "oid2", Eff.placeOptionMarket "AAPL" 150 'C' "08/16" 3,
         Eff.realizeOption "AAPL" 150 'C' "08/16" 3 4, Eff.save]) := by
  constructor
  · have h := monitor_sell_timeout_fallback_spec.1 ⟨[Holding.stock "AAPL" 100 10], []⟩
      "AAPL" 10 false "oid" ⟨2025, 8, 16⟩ ⟨.PartiallyFilled, 4, 11⟩ (some "mid")
      (some ⟨.Filled, 6, 9⟩)
      [Eff.realizeStock "AAPL" 4 11, Eff.save, Eff.cancelOrder "oid",
       Eff.placeStockMarket "AAPL" 6, Eff.realizeStock "AAPL" 6 9, Eff.save]
      (Or.inl rfl) (by with_unfolding_all decide)
    refine ⟨h.1.trans (by with_unfolding_all decide),
      h.2.1.trans (by with_unfolding_all decide),
      h.2.2.1.trans (by with_unfolding_all decide),
      h.2.2.2 (by with_unfolding_all decide)⟩
  · have h := monitor_sell_timeout_fallback_spec.2
      ⟨[Holding.option "AAPL" 150 'C' "08/16" 5 1], []⟩ "AAPL" 150 'C' "08/16" 5
      false "oid2" ⟨2025, 8, 16⟩ ⟨.Working, 2, 3⟩ (some "mid2") (some ⟨.Filled, 3, 4⟩)
      [Eff.realizeOption "AAPL" 150 'C' "08/16" 2 3, Eff.save,
       Eff.cancelOrder "oid2", Eff.placeOptionMarket "AAPL" 150 'C' "08/16" 3,
       Eff.realizeOption "AAPL" 150 'C' "08/16" 3 4, Eff.save]
      (Or.inr (Or.inl rfl)) (by with_unfolding_all decide)
    refine ⟨h.1.trans (by with_unfolding_all decide),
      h.2.1.trans (by with_unfolding_all decide),
      h.2.2.1.trans (by with_unfolding_all decide),
      ?_⟩
    have hm := h.2.2.2 (by with_unfolding_all decide)
    with_unfolding_all exact hm

/-- C7: the spec claims the risk check rejects a SellToClose option signal
whenever the held quantity for the key symbol+strike+call/put+expiry is less
than the requested quantity.  With the expiry-blind `position_qty_option`
the ledger below (5 contracts of the 09/20 expiry, none of 08/16) lets an
STC of 5 contracts of the 08/16 expiry pass the check. -/
theorem pre_check_accepts_stc_with_wrong_expiry :
    (RiskEngine.mk 1000000).pre_check
      (.option ⟨.STC, "AAPL", 150, 'C', "08/16", 5, .Market, none⟩) 1
      (BotState.mk [Holding.option "AAPL" 150 'C' "09/20" 5 1] []) = .ok () := by
  with_unfolding_all rfl

end Trader
